import Mathlib

/-!
Shallow embedding of the crawl-and-ingest pipeline of the
geopolitics-statistics-map repository, together with theorems settling the
specification claims about it.

The embedded functions mirror, statement by statement:
  * `CrawlerService.crawlAllSources` and `CrawlerService.extractCountries`
    (src/server/src/crawler/crawler.service.ts),
  * `NewsService.createNews` and `NewsService.findExistingUrls`
    (src/server/crawling/src/news/news.service.ts, the S3-backed variant),
  * `S3Service.uploadContent` (src/server/src/aws/s3.service.ts),
  * the unique `url` index declared on the news schema
    (src/server/src/news/schemas/news.schema.ts), and
  * `SchedulerService.startCrawling` (src/server/crawling/src/scheduler).

Asynchronous effects are embedded by explicit state passing: the MongoDB
collection becomes a `RepoState`, the S3 bucket a `BlobStore`, and each
fallible external call is decided by an injected boolean fault flag carried
by the environment, so that every run of the pipeline is a total computable
function of its environment and starting state.
-/

namespace GeoNews

/-- JavaScript truthiness of an optional string field, as used by
`if (newsData.content)`: `undefined` and the empty string are falsy. -/
def truthy : Option String → Bool
  | none => false
  | some s => !s.isEmpty

/-- `article.content || ''` in `crawlAllSources`. -/
def contentOrEmpty : Option String → String
  | none => ""
  | some s => s

/-- Contiguous-subsequence test on character lists: `needle` occurs in
`hay` as a contiguous run. -/
def hasInfix : List Char → List Char → Bool
  | [], needle => needle.isEmpty
  | c :: t, needle => needle.isPrefixOf (c :: t) || hasInfix t needle

/-- `hay.includes(needle)` on JavaScript strings: contiguous substring test. -/
def jsIncludes (hay needle : String) : Bool :=
  hasInfix hay.data needle.data

/-- `s.toLowerCase()`: character-wise lowercasing. -/
def jsToLower (s : String) : String :=
  String.mk (s.data.map Char.toLower)

/-- The fixed country list hard-coded in `CrawlerService.extractCountries`. -/
def countryList : List String :=
  ["United States", "China", "Russia", "India", "Japan", "South Korea",
   "North Korea", "UK", "France", "Germany", "Israel", "Iran",
   "Saudi Arabia", "Ukraine", "Taiwan", "Canada", "Australia", "Brazil",
   "Mexico", "Egypt", "South Africa", "Nigeria", "Pakistan", "Indonesia"]

/-- `CrawlerService.extractCountries`: keep the configured countries whose
lower-cased name occurs in the lower-cased article text. -/
def extractCountries (text : String) : List String :=
  countryList.filter (fun country =>
    jsIncludes (jsToLower text) (jsToLower country))

/-- The derived `{countries, regions, organizations, events}` structure. -/
structure GeopoliticalData where
  countries : List String
  regions : List String
  organizations : List String
  events : List String
deriving DecidableEq

/-- The transient `NewsArticleInfo` produced by the source extractors. -/
structure NewsArticleInfo where
  title : String
  url : String
  source : String
  content : Option String
  contentKey : Option String
  publishedAt : Nat
  geopoliticalData : Option GeopoliticalData
deriving DecidableEq

/-- One persisted MongoDB document (the claim-relevant fields of the
`MongoNews` schema). -/
structure MongoNewsRecord where
  title : String
  content : String
  contentKey : Option String
  source : String
  url : String
  publishedAt : Nat
  geopoliticalData : GeopoliticalData
deriving DecidableEq

/-- The document store (Article Repository) state: the stored records. -/
structure RepoState where
  records : List MongoNewsRecord
deriving DecidableEq

/-- The urls of the stored records. -/
def repoUrls (r : RepoState) : List String :=
  r.records.map (·.url)

/-- The blob store (S3 bucket) state: stored (key, content) pairs. -/
structure BlobStore where
  blobs : List (String × String)
deriving DecidableEq

/-- The opaque key generated by `uploadContent`
(`articles/{source}/{uuid}-{timestamp}.txt`); uuid and timestamp are embedded
as a counter that makes the key fresh per upload. -/
def freshKey (b : BlobStore) (source : String) : String :=
  "articles/" ++ source ++ "/" ++ toString b.blobs.length ++ ".txt"

/-- `S3Service.uploadContent`: put the content under a fresh key and return
the key, or throw when the injected S3 fault fires. -/
def uploadContent (fails : Bool) (b : BlobStore) (content source : String) :
    Except String (String × BlobStore) :=
  if fails then .error "S3 upload error"
  else .ok (freshKey b source, ⟨b.blobs ++ [(freshKey b source, content)]⟩)

/-- Modelled from the spec: the Article Repository's insert
(`newsDoc.save()`). Its duplicate-rejection behaviour is enforced by the
MongoDB engine, which is not part of src/; the schema in src/ declares
`NewsSchema.index({url: 1}, {unique: true})` and the spec states that
duplicate-URL inserts must be rejected without corrupting the existing
record, so the insert fails exactly on a duplicate url and otherwise
appends the record. -/
def insertRecord (r : RepoState) (rec : MongoNewsRecord) :
    Except String RepoState :=
  if rec.url ∈ repoUrls r then .error "duplicate key error"
  else .ok ⟨r.records ++ [rec]⟩

/-- One `newsDoc.save()` call: either the injected database fault fires, or
the repository-level insert runs. -/
def saveDoc (generalFail : Bool) (r : RepoState) (rec : MongoNewsRecord) :
    Except String RepoState :=
  if generalFail then .error "metadata save error"
  else insertRecord r rec

/-- The document built by `NewsService.createNews` from an article, an
inline content value and a content key (fields not set by the crawler are
defaulted exactly as in the code). -/
def mkRecord (a : NewsArticleInfo) (content : String)
    (contentKey : Option String) : MongoNewsRecord :=
  { title := a.title
    content := content
    contentKey := contentKey
    source := a.source
    url := a.url
    publishedAt := a.publishedAt
    geopoliticalData := a.geopoliticalData.getD ⟨[], [], [], []⟩ }

/-- The inline preview computed by `createNews`:
`content.length > 200 ? content.substring(0, 200) + '...' : ''`. -/
def excerptOf (body : String) : String :=
  if body.length > 200 then String.mk (body.data.take 200) ++ "..." else ""

/-- A candidate article together with the injected fault flags of the two
external calls its persistence performs (S3 put, MongoDB save). -/
structure CandidateRun where
  art : NewsArticleInfo
  blobFails : Bool
  saveFails : Bool
deriving DecidableEq

/-- `NewsService.createNews` (S3-backed variant): when the article has body
text, upload it to S3 first (failure aborts the whole persist), store only a
bounded excerpt inline, then insert the metadata document; the `catch`
rethrows, so the result carries the error. Returns the blob store, the repo
and the error, reflecting that a failed save can still have written the
blob. -/
def createNews (c : CandidateRun) (b : BlobStore) (r : RepoState) :
    BlobStore × RepoState × Option String :=
  if truthy c.art.content then
    match uploadContent c.blobFails b (contentOrEmpty c.art.content)
        c.art.source with
    | .error e => (b, r, some e)
    | .ok (key, b') =>
      match saveDoc c.saveFails r
          (mkRecord c.art (excerptOf (contentOrEmpty c.art.content))
            (some key)) with
      | .error e => (b', r, some e)
      | .ok r' => (b', r', none)
  else
    match saveDoc c.saveFails r (mkRecord c.art "" c.art.contentKey) with
    | .error e => (b, r, some e)
    | .ok r' => (b, r', none)

/-- `NewsService.findExistingUrls`: the urls of the stored records whose url
is among the queried urls. -/
def findExistingUrls (r : RepoState) (urls : List String) : List String :=
  (r.records.filter (fun rec => decide (rec.url ∈ urls))).map (·.url)

/-- The geopolitical enrichment performed by `crawlAllSources` on each new
article right before saving it. -/
def enrich (c : CandidateRun) : CandidateRun :=
  { c with
    art := { c.art with
      geopoliticalData :=
        some ⟨extractCountries (contentOrEmpty c.art.content), [], [], []⟩ } }

/-- The observable result of the dedup-and-persist loop of
`crawlAllSources`. -/
structure LoopResult where
  blob : BlobStore
  repo : RepoState
  saved : Nat
  err : Option String
deriving DecidableEq

/-- The `for (const article of allArticles)` loop of `crawlAllSources`:
skip candidates whose url is in the pre-computed existing list, enrich and
persist the rest; an exception from `createNews` is not caught here, so the
first persistence failure ends the loop (the error propagates to the
cycle-level catch). -/
def saveLoop (ex : List String) :
    List CandidateRun → BlobStore → RepoState → Nat → LoopResult
  | [], b, r, n => ⟨b, r, n, none⟩
  | c :: rest, b, r, n =>
    if c.art.url ∈ ex then saveLoop ex rest b r n
    else
      match createNews (enrich c) b r with
      | (b', r', none) => saveLoop ex rest b' r' (n + 1)
      | (b', r', some e) => ⟨b', r', n, some e⟩

/-- One configured source, as observed by `crawlAllSources`: the articles
its crawl method accumulated before terminating, and the fault (if any) that
terminated the accumulation. Every per-source crawl method in the repository
has the shape `try { ...push into articles... } catch (e) { log } return
articles`, so the fault never escapes the method. -/
structure SourceRun where
  name : String
  yielded : List CandidateRun
  fault : Option String
deriving DecidableEq

/-- A per-source crawl method call (`crawlBBC(browser)`, `crawlAPNews()`,
...): the catch inside the method swallows the fault and the accumulated
articles are returned. -/
def crawlSourceMethod (s : SourceRun) : List CandidateRun :=
  s.yielded

/-- The environment of one cycle: the outcome of `initBrowser` (the only
resource acquisition) and the configured sources in their fixed order. -/
structure CrawlEnv where
  browserInit : Except String Unit
  sources : List SourceRun

/-- What one `crawlAllSources()` call leaves behind: the two storage states,
the two counts it logs, and the error its cycle-level catch logged (if any).
The JavaScript function itself returns `Promise<void>`. -/
structure CrawlOutcome where
  blob : BlobStore
  repo : RepoState
  totalFound : Nat
  savedCount : Nat
  cycleError : Option String
deriving DecidableEq

/-- All candidates of the cycle, in source order (`allArticles`). -/
def allCandidates (env : CrawlEnv) : List CandidateRun :=
  (env.sources.map crawlSourceMethod).flatten

/-- The urls of all candidates of the cycle. -/
def candidateUrls (env : CrawlEnv) : List String :=
  (allCandidates env).map (·.art.url)

/-- `CrawlerService.crawlAllSources`: acquire the browser, run every source
crawl method, concatenate the results, dedup with one bulk
`findExistingUrls` query, then enrich and persist each new candidate. The
whole body sits in a single `try { ... } catch (log) finally (close
browser)`, so any exception — from `initBrowser` or from a `createNews`
call — is logged at cycle level and the function returns normally. -/
def crawlAllSources (env : CrawlEnv) (b : BlobStore) (r : RepoState) :
    CrawlOutcome :=
  match env.browserInit with
  | .error e => ⟨b, r, 0, 0, some e⟩
  | .ok _ =>
    let allArticles := allCandidates env
    let urls := allArticles.map (·.art.url)
    let ex := findExistingUrls r urls
    let res := saveLoop ex allArticles b r 0
    ⟨res.blob, res.repo, allArticles.length, res.saved, res.err⟩

/-- The `{success, message}` body returned by `POST /scheduler/crawl`. -/
structure TriggerResponse where
  success : Bool
  message : String
deriving DecidableEq

/-- `SchedulerService.startCrawling`: `try { await crawlAllSources(); return
{success: true, ...} } catch (e) { return {success: false, ...} }`. The
embedded `crawlAllSources` is total — mirroring that the JavaScript method
catches every exception of its body — so the catch branch of the scheduler
is unreachable and the response is always the success one. -/
def startCrawling (env : CrawlEnv) (b : BlobStore) (r : RepoState) :
    TriggerResponse × CrawlOutcome :=
  ({ success := true, message := "Crawling completed successfully" },
   crawlAllSources env b r)

/-- Spec-side summary type, following the spec's words:
`runCrawlCycle() -> CrawlSummary{totalFound, totalSaved, perSourceErrors}`. -/
structure SpecCrawlSummary where
  totalFound : Nat
  totalSaved : Nat
  perSourceErrors : List String
deriving DecidableEq

/-- Spec-side reading of `perSourceErrors`: the names of the sources whose
extraction failed during the cycle. -/
def specPerSourceErrors (env : CrawlEnv) : List String :=
  (env.sources.filter (fun s => s.fault.isSome)).map (·.name)

/-! ### Characterization of `createNews` -/

/-- The blob store after the S3 put that `createNews` performs for an
article with body text. -/
def blobPut (b : BlobStore) (c : CandidateRun) : BlobStore :=
  ⟨b.blobs ++ [(freshKey b c.art.source, contentOrEmpty c.art.content)]⟩

/-- The blob store after `createNews`, when the persist does not fail
before the save: unchanged for body-less articles. -/
def blobAfter (c : CandidateRun) (b : BlobStore) : BlobStore :=
  if truthy c.art.content then blobPut b c else b

/-- The metadata document that `createNews` inserts for a candidate. -/
def recordOf (c : CandidateRun) (b : BlobStore) : MongoNewsRecord :=
  if truthy c.art.content then
    mkRecord c.art (excerptOf (contentOrEmpty c.art.content))
      (some (freshKey b c.art.source))
  else mkRecord c.art "" c.art.contentKey

/-- The condition under which persisting a candidate fails: the S3 put
throws, the database save throws, or the unique index rejects the url. -/
def persistFails (c : CandidateRun) (r : RepoState) : Prop :=
  (truthy c.art.content = true ∧ c.blobFails = true) ∨ c.saveFails = true ∨
    c.art.url ∈ repoUrls r

theorem mkRecord_url (a : NewsArticleInfo) (x : String) (k : Option String) :
    (mkRecord a x k).url = a.url := rfl

/-- Branch-free description of `createNews`. -/
theorem createNews_eq (c : CandidateRun) (b : BlobStore) (r : RepoState) :
    createNews c b r =
      if truthy c.art.content then
        if c.blobFails then (b, r, some "S3 upload error")
        else if c.saveFails then (blobPut b c, r, some "metadata save error")
        else if c.art.url ∈ repoUrls r then
          (blobPut b c, r, some "duplicate key error")
        else (blobPut b c, ⟨r.records ++ [recordOf c b]⟩, none)
      else
        if c.saveFails then (b, r, some "metadata save error")
        else if c.art.url ∈ repoUrls r then (b, r, some "duplicate key error")
        else (b, ⟨r.records ++ [recordOf c b]⟩, none) := by
  cases hct : truthy c.art.content <;>
    cases hbf : c.blobFails <;>
      cases hsf : c.saveFails <;>
        by_cases hm : c.art.url ∈ repoUrls r <;>
          simp [createNews, uploadContent, saveDoc, insertRecord, blobPut,
            recordOf, mkRecord, hct, hbf, hsf, hm]

theorem createNews_spec (c : CandidateRun) (b : BlobStore) (r : RepoState) :
    (persistFails c r → ∃ b' e, createNews c b r = (b', r, some e)) ∧
    (¬ persistFails c r →
      createNews c b r = (blobAfter c b, ⟨r.records ++ [recordOf c b]⟩, none)) := by
  rw [createNews_eq]
  cases hct : truthy c.art.content <;>
    cases hbf : c.blobFails <;>
      cases hsf : c.saveFails <;>
        by_cases hm : c.art.url ∈ repoUrls r <;>
          simp [persistFails, blobAfter, hct, hbf, hsf, hm]

/-- A failed persist leaves the repository exactly as it was. -/
theorem createNews_err {c : CandidateRun} {b b' : BlobStore}
    {r r' : RepoState} {e : String}
    (h : createNews c b r = (b', r', some e)) :
    r' = r ∧ persistFails c r := by
  by_cases hp : persistFails c r
  · obtain ⟨b₁, e₁, he⟩ := (createNews_spec c b r).1 hp
    rw [he] at h
    simp only [Prod.mk.injEq, Option.some.injEq] at h
    exact ⟨h.2.1.symm, hp⟩
  · have hok := (createNews_spec c b r).2 hp
    rw [hok] at h
    simp at h

/-- A successful persist appends exactly the one new document. -/
theorem createNews_ok {c : CandidateRun} {b b' : BlobStore}
    {r r' : RepoState}
    (h : createNews c b r = (b', r', none)) :
    r'.records = r.records ++ [recordOf c b] ∧ b' = blobAfter c b ∧
      ¬ persistFails c r := by
  by_cases hp : persistFails c r
  · obtain ⟨b₁, e₁, he⟩ := (createNews_spec c b r).1 hp
    rw [he] at h
    simp at h
  · have hok := (createNews_spec c b r).2 hp
    rw [hok] at h
    simp only [Prod.mk.injEq] at h
    obtain ⟨hb, hr, -⟩ := h
    exact ⟨by rw [← hr], hb.symm, hp⟩

/-! ### The enrichment step -/

theorem enrich_url (c : CandidateRun) : (enrich c).art.url = c.art.url := rfl

theorem enrich_content (c : CandidateRun) :
    (enrich c).art.content = c.art.content := rfl

theorem persistFails_enrich (c : CandidateRun) (r : RepoState) :
    persistFails (enrich c) r ↔ persistFails c r := Iff.rfl

/-- The document saved for an enriched candidate carries exactly the
extracted countries. -/
theorem recordOf_enrich_countries (c : CandidateRun) (b : BlobStore) :
    (recordOf (enrich c) b).geopoliticalData.countries =
      extractCountries (contentOrEmpty c.art.content) := by
  unfold recordOf
  split <;> rfl

/-! ### The dedup-and-persist loop -/

theorem saveLoop_nil (ex : List String) (b : BlobStore) (r : RepoState)
    (n : Nat) : saveLoop ex [] b r n = ⟨b, r, n, none⟩ := rfl

theorem saveLoop_skip {ex : List String} {c : CandidateRun}
    (rest : List CandidateRun) (b : BlobStore) (r : RepoState) (n : Nat)
    (h : c.art.url ∈ ex) :
    saveLoop ex (c :: rest) b r n = saveLoop ex rest b r n := by
  simp [saveLoop, h]

theorem saveLoop_save {ex : List String} {c : CandidateRun}
    (rest : List CandidateRun) {b b' : BlobStore} {r r' : RepoState}
    (n : Nat) (h : c.art.url ∉ ex)
    (hc : createNews (enrich c) b r = (b', r', none)) :
    saveLoop ex (c :: rest) b r n = saveLoop ex rest b' r' (n + 1) := by
  simp [saveLoop, h, hc]

theorem saveLoop_abort {ex : List String} {c : CandidateRun}
    (rest : List CandidateRun) {b b' : BlobStore} {r r' : RepoState}
    (n : Nat) {e : String} (h : c.art.url ∉ ex)
    (hc : createNews (enrich c) b r = (b', r', some e)) :
    saveLoop ex (c :: rest) b r n = ⟨b', r', n, some e⟩ := by
  simp [saveLoop, h, hc]

/-- The loop only appends documents to the repository. -/
theorem saveLoop_records (ex : List String) :
    ∀ (cs : List CandidateRun) (b : BlobStore) (r : RepoState) (n : Nat),
      ∃ tail, (saveLoop ex cs b r n).repo.records = r.records ++ tail := by
  intro cs
  induction cs with
  | nil => exact fun b r n => ⟨[], by simp [saveLoop_nil]⟩
  | cons c rest ih =>
    intro b r n
    by_cases hmem : c.art.url ∈ ex
    · rw [saveLoop_skip rest b r n hmem]
      exact ih b r n
    · rcases hc : createNews (enrich c) b r with ⟨b', r', err⟩
      cases err with
      | none =>
        rw [saveLoop_save rest n hmem hc]
        obtain ⟨t, ht⟩ := ih b' r' (n + 1)
        obtain ⟨hr', -, -⟩ := createNews_ok hc
        exact ⟨recordOf (enrich c) b :: t, by
          rw [ht, hr']; simp⟩
      | some e =>
        rw [saveLoop_abort rest n hmem hc]
        obtain ⟨hr', -⟩ := createNews_err hc
        exact ⟨[], by simp [hr']⟩

/-- The url set of the repository only grows under the loop. -/
theorem saveLoop_mono (ex : List String) (cs : List CandidateRun)
    (b : BlobStore) (r : RepoState) (n : Nat) :
    ∀ u ∈ repoUrls r, u ∈ repoUrls (saveLoop ex cs b r n).repo := by
  intro u hu
  obtain ⟨tail, ht⟩ := saveLoop_records ex cs b r n
  unfold repoUrls at hu ⊢
  rw [ht]
  simp only [List.map_append, List.mem_append]
  exact Or.inl hu

theorem recordOf_url (c : CandidateRun) (b : BlobStore) :
    (recordOf c b).url = c.art.url := by
  unfold recordOf
  split <;> rfl

/-- Replaying the loop on the same candidate list, starting from the
repository the first pass produced, saves nothing and leaves the repository
untouched: every candidate the first pass persisted is now skipped by the
dedup check, and the candidate the first pass failed on (if any) fails
again. `ex1`/`ex2` are the bulk existence-check results of the two passes,
constrained to mean membership in the respective starting repository. -/
theorem saveLoop_twice (ex1 : List String) :
    ∀ (cs : List CandidateRun) (b : BlobStore) (r : RepoState) (n : Nat)
      (ex2 : List String) (bb : BlobStore),
      (cs.map (fun c => c.art.url)).Nodup →
      (∀ c ∈ cs, c.art.url ∈ ex1 → c.art.url ∈ repoUrls r) →
      (∀ c ∈ cs, c.art.url ∉ ex1 → c.art.url ∉ repoUrls r) →
      (∀ c ∈ cs, (c.art.url ∈ ex2 ↔
          c.art.url ∈ repoUrls (saveLoop ex1 cs b r n).repo)) →
      (saveLoop ex2 cs bb (saveLoop ex1 cs b r n).repo 0).repo
          = (saveLoop ex1 cs b r n).repo ∧
      (saveLoop ex2 cs bb (saveLoop ex1 cs b r n).repo 0).saved = 0 := by
  intro cs
  induction cs with
  | nil =>
    intro b r n ex2 bb _ _ _ _
    simp [saveLoop_nil]
  | cons c rest ih =>
    intro b r n ex2 bb hnd hex1 hfresh hex2
    have hndc : c.art.url ∉ rest.map (fun c => c.art.url) ∧
        (rest.map (fun c => c.art.url)).Nodup :=
      List.nodup_cons.mp (by simpa using hnd)
    by_cases hmem : c.art.url ∈ ex1
    · rw [saveLoop_skip rest b r n hmem] at hex2 ⊢
      have hu : c.art.url ∈ repoUrls (saveLoop ex1 rest b r n).repo :=
        saveLoop_mono ex1 rest b r n _ (hex1 c (by simp) hmem)
      rw [saveLoop_skip rest bb _ 0 ((hex2 c (by simp)).2 hu)]
      exact ih b r n ex2 bb hndc.2
        (fun c' hc' => hex1 c' (List.mem_cons_of_mem _ hc'))
        (fun c' hc' => hfresh c' (List.mem_cons_of_mem _ hc'))
        (fun c' hc' => hex2 c' (List.mem_cons_of_mem _ hc'))
    · have hnotin : c.art.url ∉ repoUrls r := hfresh c (by simp) hmem
      rcases hc : createNews (enrich c) b r with ⟨b', r', err⟩
      cases err with
      | none =>
        rw [saveLoop_save rest n hmem hc] at hex2 ⊢
        obtain ⟨hr', -, -⟩ := createNews_ok hc
        have hurls' : repoUrls r' = repoUrls r ++ [c.art.url] := by
          unfold repoUrls
          rw [hr']
          simp [recordOf_url, enrich_url]
        have hu : c.art.url ∈ repoUrls (saveLoop ex1 rest b' r' (n + 1)).repo :=
          saveLoop_mono ex1 rest b' r' (n + 1) _ (by simp [hurls'])
        rw [saveLoop_skip rest bb _ 0 ((hex2 c (by simp)).2 hu)]
        refine ih b' r' (n + 1) ex2 bb hndc.2 ?_ ?_
          (fun c' hc' => hex2 c' (List.mem_cons_of_mem _ hc'))
        · intro c' hc' hin
          rw [hurls']
          exact List.mem_append.mpr
            (Or.inl (hex1 c' (List.mem_cons_of_mem _ hc') hin))
        · intro c' hc' hnin
          have hne : c'.art.url ≠ c.art.url := fun he =>
            hndc.1 (he ▸ List.mem_map_of_mem _ hc')
          rw [hurls']
          simp only [List.mem_append, List.mem_singleton]
          push_neg
          exact ⟨hfresh c' (List.mem_cons_of_mem _ hc') hnin, hne⟩
      | some e =>
        rw [saveLoop_abort rest n hmem hc] at hex2 ⊢
        obtain ⟨hre, hpf⟩ := createNews_err hc
        subst hre
        simp only [] at hex2 ⊢
        have hm2 : c.art.url ∉ ex2 := fun hin =>
          hnotin ((hex2 c (by simp)).1 hin)
        obtain ⟨b₂, e₂, hc2⟩ := (createNews_spec (enrich c) bb r').1 hpf
        rw [saveLoop_abort rest 0 hm2 hc2]
        exact ⟨rfl, rfl⟩

/-- A successful persist appends exactly the candidate's url to the
repository's url list. -/
theorem repoUrls_after_ok {c : CandidateRun} {b b' : BlobStore}
    {r r' : RepoState} (h : createNews c b r = (b', r', none)) :
    repoUrls r' = repoUrls r ++ [c.art.url] := by
  obtain ⟨hr', -, -⟩ := createNews_ok h
  unfold repoUrls
  rw [hr']
  simp [recordOf_url]

/-- The loop preserves the no-duplicate-url invariant of the repository. -/
theorem saveLoop_nodup (ex : List String) :
    ∀ (cs : List CandidateRun) (b : BlobStore) (r : RepoState) (n : Nat),
      (repoUrls r).Nodup → (repoUrls (saveLoop ex cs b r n).repo).Nodup := by
  intro cs
  induction cs with
  | nil =>
    intro b r n h
    simpa [saveLoop_nil]
  | cons c rest ih =>
    intro b r n h
    by_cases hmem : c.art.url ∈ ex
    · rw [saveLoop_skip rest b r n hmem]
      exact ih b r n h
    · rcases hc : createNews (enrich c) b r with ⟨b', r', err⟩
      cases err with
      | none =>
        rw [saveLoop_save rest n hmem hc]
        obtain ⟨-, -, hnp⟩ := createNews_ok hc
        refine ih b' r' (n + 1) ?_
        rw [repoUrls_after_ok hc, enrich_url]
        simp only [List.nodup_append, List.nodup_cons, List.not_mem_nil,
          not_false_iff, List.nodup_nil, and_true, true_and,
          List.disjoint_singleton]
        exact ⟨h, fun hin => hnp (Or.inr (Or.inr hin))⟩
      | some e =>
        rw [saveLoop_abort rest n hmem hc]
        obtain ⟨hre, -⟩ := createNews_err hc
        subst hre
        exact h

/-- Every record the loop adds is the saved document of one of the
enriched candidates. -/
theorem saveLoop_new_records (ex : List String) :
    ∀ (cs : List CandidateRun) (b : BlobStore) (r : RepoState) (n : Nat)
      (rec : MongoNewsRecord),
      rec ∈ (saveLoop ex cs b r n).repo.records →
      rec ∈ r.records ∨ ∃ c ∈ cs, ∃ bb, rec = recordOf (enrich c) bb := by
  intro cs
  induction cs with
  | nil =>
    intro b r n rec h
    rw [saveLoop_nil] at h
    exact Or.inl h
  | cons c rest ih =>
    intro b r n rec h
    by_cases hmem : c.art.url ∈ ex
    · rw [saveLoop_skip rest b r n hmem] at h
      rcases ih b r n rec h with h' | ⟨c', hc', bb, hrec⟩
      · exact Or.inl h'
      · exact Or.inr ⟨c', List.mem_cons_of_mem _ hc', bb, hrec⟩
    · rcases hc : createNews (enrich c) b r with ⟨b', r', err⟩
      cases err with
      | none =>
        rw [saveLoop_save rest n hmem hc] at h
        obtain ⟨hr', -, -⟩ := createNews_ok hc
        rcases ih b' r' (n + 1) rec h with h' | ⟨c', hc', bb, hrec⟩
        · rw [hr'] at h'
          rcases List.mem_append.mp h' with h'' | h''
          · exact Or.inl h''
          · exact Or.inr ⟨c, List.mem_cons_self c rest, b,
              (List.mem_singleton.mp h'')⟩
        · exact Or.inr ⟨c', List.mem_cons_of_mem _ hc', bb, hrec⟩
      | some e =>
        rw [saveLoop_abort rest n hmem hc] at h
        obtain ⟨hre, -⟩ := createNews_err hc
        subst hre
        exact Or.inl h

/-- The bulk existence check returns exactly the queried urls present in
the repository. -/
theorem mem_findExistingUrls (r : RepoState) (urls : List String)
    (u : String) :
    u ∈ findExistingUrls r urls ↔ u ∈ repoUrls r ∧ u ∈ urls := by
  unfold findExistingUrls repoUrls
  simp only [List.mem_map, List.mem_filter, decide_eq_true_eq]
  constructor
  · rintro ⟨rec, ⟨hrec, hin⟩, rfl⟩
    exact ⟨⟨rec, hrec, rfl⟩, hin⟩
  · rintro ⟨⟨rec, hrec, rfl⟩, hin⟩
    exact ⟨rec, ⟨hrec, hin⟩, rfl⟩

/-- `crawlAllSources` on a successfully acquired browser, written out in
terms of the dedup-and-persist loop. -/
theorem crawlAllSources_ok (env : CrawlEnv) (b : BlobStore) (r : RepoState)
    (h : env.browserInit = .ok ()) :
    crawlAllSources env b r =
      ⟨(saveLoop (findExistingUrls r (candidateUrls env))
          (allCandidates env) b r 0).blob,
       (saveLoop (findExistingUrls r (candidateUrls env))
          (allCandidates env) b r 0).repo,
       (allCandidates env).length,
       (saveLoop (findExistingUrls r (candidateUrls env))
          (allCandidates env) b r 0).saved,
       (saveLoop (findExistingUrls r (candidateUrls env))
          (allCandidates env) b r 0).err⟩ := by
  unfold crawlAllSources
  rw [h]
  rfl

/-- `crawlAllSources` when the browser cannot be acquired: the cycle-level
catch logs the error and nothing else happens. -/
theorem crawlAllSources_err (env : CrawlEnv) (b : BlobStore) (r : RepoState)
    (e : String) (h : env.browserInit = .error e) :
    crawlAllSources env b r = ⟨b, r, 0, 0, some e⟩ := by
  unfold crawlAllSources
  rw [h]

/-! ### Claim scenarios -/

def plain (a : NewsArticleInfo) : CandidateRun := ⟨a, false, false⟩

def emptyBlob : BlobStore := ⟨[]⟩

def emptyRepo : RepoState := ⟨[]⟩

def artA1 : NewsArticleInfo :=
  ⟨"A story 1", "https://a.example/1", "A", some "first body", none, 0, none⟩

def artA2 : NewsArticleInfo :=
  ⟨"A story 2", "https://a.example/2", "A", some "second body", none, 0, none⟩

def artC1 : NewsArticleInfo :=
  ⟨"C story", "https://c.example/1", "C", some "third body", none, 0, none⟩

/-- Repository that already holds the url of source C's article. -/
def repoWithC : RepoState := ⟨[mkRecord artC1 "" none]⟩

/-- The spec scenario: A yields 2 articles, B's extraction throws, C yields
1 article whose url already exists. -/
def scenarioEnvThrowingB : CrawlEnv :=
  ⟨.ok (), [⟨"A", [plain artA1, plain artA2], none⟩,
            ⟨"B", [], some "navigation timeout"⟩,
            ⟨"C", [plain artC1], none⟩]⟩

/-- The same scenario except B's extraction completes and simply finds
nothing. -/
def scenarioEnvQuietB : CrawlEnv :=
  ⟨.ok (), [⟨"A", [plain artA1, plain artA2], none⟩,
            ⟨"B", [], none⟩,
            ⟨"C", [plain artC1], none⟩]⟩

/-! ### Claim C1 -/

/-- C1, counterexample. The claim says `crawlAllSources` returns a summary
whose `perSourceErrors` is `[B]` in the A/B/C scenario. It cannot: the
spec-side summary distinguishes the run where B throws (`perSourceErrors =
["B"]`) from the run where B quietly finds nothing (`perSourceErrors = []`),
but the code produces identical outcomes for the two runs — `crawlAllSources`
returns `void` and records nothing about which source failed, so no value it
returns can contain `perSourceErrors = [B]`. -/
theorem crawl_cycle_no_summary_returned :
    specPerSourceErrors scenarioEnvThrowingB = ["B"] ∧
    specPerSourceErrors scenarioEnvQuietB = [] ∧
    crawlAllSources scenarioEnvThrowingB emptyBlob repoWithC =
      crawlAllSources scenarioEnvQuietB emptyBlob repoWithC := by
  refine ⟨rfl, rfl, ?_⟩
  decide

/-- C1, amended: `crawlAllSources` returns nothing; the counts it computes
and logs for the A/B/C scenario are `totalFound = 3` and `savedCount = 2`,
the cycle completes without a cycle-level error, and no per-source error
list is produced. -/
theorem crawl_cycle_scenario_counts :
    (crawlAllSources scenarioEnvThrowingB emptyBlob repoWithC).totalFound = 3 ∧
    (crawlAllSources scenarioEnvThrowingB emptyBlob repoWithC).savedCount = 2 ∧
    (crawlAllSources scenarioEnvThrowingB emptyBlob repoWithC).cycleError =
      none := by
  decide

/-! ### Claim C2 -/

def artX : NewsArticleInfo :=
  ⟨"X", "https://s.example/x", "S", some "body x", none, 0, none⟩

def artY : NewsArticleInfo :=
  ⟨"Y", "https://s.example/y", "S", some "body y", none, 0, none⟩

/-- Candidate X whose S3 put throws. -/
def candXFail : CandidateRun := ⟨artX, true, false⟩

def envPersistFail : CrawlEnv :=
  ⟨.ok (), [⟨"S", [candXFail, plain artY], none⟩]⟩

def envPersistOk : CrawlEnv :=
  ⟨.ok (), [⟨"S", [plain artX, plain artY], none⟩]⟩

/-- C2, counterexample. When persisting candidate X fails, candidate Y —
which would persist fine on its own, as the second conjunct shows — is
never attempted: the exception from `createNews` propagates to the
cycle-level catch and the loop ends, so the cycle saves nothing at all
instead of continuing with Y. -/
theorem persist_failure_not_isolated :
    (crawlAllSources envPersistFail emptyBlob emptyRepo).savedCount = 0 ∧
    (crawlAllSources envPersistFail emptyBlob emptyRepo).repo.records = [] ∧
    (crawlAllSources envPersistOk emptyBlob emptyRepo).savedCount = 2 := by
  decide

/-- C2, amended: a persistence failure for one candidate is not caught in
the loop; it ends the whole batch. Once the loop has failed, appending any
further candidates to the batch changes nothing — they are never
attempted. -/
theorem persist_error_aborts_batch (ex : List String)
    (cs rest : List CandidateRun) (b : BlobStore) (r : RepoState) (n : Nat)
    (h : (saveLoop ex cs b r n).err.isSome) :
    saveLoop ex (cs ++ rest) b r n = saveLoop ex cs b r n := by
  induction cs generalizing b r n with
  | nil => simp [saveLoop_nil] at h
  | cons c cs ih =>
    rw [List.cons_append]
    by_cases hmem : c.art.url ∈ ex
    · rw [saveLoop_skip cs b r n hmem] at h
      rw [saveLoop_skip (cs ++ rest) b r n hmem, saveLoop_skip cs b r n hmem]
      exact ih b r n h
    · rcases hc : createNews (enrich c) b r with ⟨b', r', err⟩
      cases err with
      | none =>
        rw [saveLoop_save cs n hmem hc] at h
        rw [saveLoop_save (cs ++ rest) n hmem hc, saveLoop_save cs n hmem hc]
        exact ih b' r' (n + 1) h
      | some e =>
        rw [saveLoop_abort (cs ++ rest) n hmem hc,
          saveLoop_abort cs n hmem hc]

theorem persist_error_aborts_batch_witness :
    saveLoop [] ([candXFail] ++ [plain artY]) emptyBlob emptyRepo 0 =
      saveLoop [] [candXFail] emptyBlob emptyRepo 0 :=
  persist_error_aborts_batch [] [candXFail] [plain artY] emptyBlob emptyRepo
    0 (by decide)

/-! ### Claim C3 -/

def envBrowserFail : CrawlEnv := ⟨.error "browser launch failed", []⟩

/-- C3, counterexample. The claim says the manual-trigger endpoint returns
`success: false` exactly when resource acquisition fails. But the
resource-acquisition failure is itself caught by the cycle-level catch of
`crawlAllSources` (it only becomes a log entry), so the scheduler's catch
never fires and the endpoint reports `success: true` even then. -/
theorem trigger_success_despite_browser_failure :
    (startCrawling envBrowserFail emptyBlob emptyRepo).1.success = true ∧
    (crawlAllSources envBrowserFail emptyBlob emptyRepo).cycleError =
      some "browser launch failed" := by
  decide

/-- C3, amended: every fault of the cycle, the rendering-session
acquisition failure included, is caught inside `crawlAllSources` and
converted to a log entry; nothing propagates to the caller, so the
manual-trigger endpoint always answers with the success response, and a
browser-acquisition failure leaves the repository untouched. -/
theorem crawl_faults_never_propagate (env : CrawlEnv) (b : BlobStore)
    (r : RepoState) (e : String) (h : env.browserInit = .error e) :
    (startCrawling env b r).1 =
      ⟨true, "Crawling completed successfully"⟩ ∧
    (crawlAllSources env b r).cycleError = some e ∧
    (crawlAllSources env b r).repo = r := by
  refine ⟨rfl, ?_, ?_⟩ <;> rw [crawlAllSources_err env b r e h]

theorem crawl_faults_never_propagate_witness :
    (startCrawling envBrowserFail emptyBlob emptyRepo).1 =
      ⟨true, "Crawling completed successfully"⟩ ∧
    (crawlAllSources envBrowserFail emptyBlob emptyRepo).cycleError =
      some "browser launch failed" ∧
    (crawlAllSources envBrowserFail emptyBlob emptyRepo).repo = emptyRepo :=
  crawl_faults_never_propagate envBrowserFail emptyBlob emptyRepo
    "browser launch failed" rfl

/-! ### Claim C4 -/

def artP1 : NewsArticleInfo :=
  ⟨"P1", "https://p.example/1", "P", some "p one", none, 0, none⟩

def artP2 : NewsArticleInfo :=
  ⟨"P2", "https://p.example/2", "P", some "p two", none, 0, none⟩

def artQ1 : NewsArticleInfo :=
  ⟨"Q1", "https://q.example/1", "Q", some "q one", none, 0, none⟩

/-- Source P accumulates two articles and then faults; source Q is fine. -/
def envFaultedMidSource : CrawlEnv :=
  ⟨.ok (), [⟨"P", [plain artP1, plain artP2], some "selector miss"⟩,
            ⟨"Q", [plain artQ1], none⟩]⟩

/-- C4, counterexample. The claim says a source hit by a fault has zero
articles recorded. Not so: the catch inside the source's crawl method
returns the articles accumulated before the fault, so faulted source P
still contributes its two articles — all three candidates are saved, not
just Q's one. -/
theorem faulted_source_keeps_partial_articles :
    (crawlAllSources envFaultedMidSource emptyBlob emptyRepo).savedCount
        = 3 ∧
    repoUrls (crawlAllSources envFaultedMidSource emptyBlob emptyRepo).repo =
      ["https://p.example/1", "https://p.example/2",
       "https://q.example/1"] := by
  decide

/-- C4, amended: a fault during extraction of one source is caught by the
catch inside that source's crawl method and has no effect whatsoever on the
cycle: the articles accumulated before the fault are kept (zero only when
the fault precedes the first extraction), and every other source runs and
reaches the dedup-and-persist stage exactly as if the fault had not
happened. -/
theorem source_fault_isolated (pre post : List SourceRun) (name : String)
    (ys : List CandidateRun) (e : String) (b : BlobStore) (r : RepoState) :
    crawlAllSources ⟨.ok (), pre ++ ⟨name, ys, some e⟩ :: post⟩ b r =
      crawlAllSources ⟨.ok (), pre ++ ⟨name, ys, none⟩ :: post⟩ b r := by
  have hcand :
      allCandidates ⟨.ok (), pre ++ (⟨name, ys, some e⟩ : SourceRun) :: post⟩
        = allCandidates ⟨.ok (), pre ++ (⟨name, ys, none⟩ : SourceRun) :: post⟩ := by
    unfold allCandidates
    simp [crawlSourceMethod]
  rw [crawlAllSources_ok _ b r rfl, crawlAllSources_ok _ b r rfl]
  simp only [candidateUrls]
  rw [hcand]

/-! ### Claim C5 -/

/-- C5: for an article with non-empty body text, the blob write comes
strictly before the metadata insert. If the S3 put throws, `createNews`
ends immediately with both stores untouched — no metadata record is
created. If `createNews` succeeds, the single new record carries a
`contentKey` that names exactly the blob just written, and that blob holds
the body. -/
theorem blob_write_before_metadata (c : CandidateRun) (b : BlobStore)
    (r : RepoState) (body : String)
    (hc : c.art.content = some body) (hne : body.isEmpty = false) :
    (c.blobFails = true →
      createNews c b r = (b, r, some "S3 upload error")) ∧
    (∀ b' r', createNews c b r = (b', r', none) →
      r'.records = r.records ++ [recordOf c b] ∧
      (recordOf c b).contentKey = some (freshKey b c.art.source) ∧
      (freshKey b c.art.source, body) ∈ b'.blobs) := by
  have htr : truthy c.art.content = true := by
    rw [hc]
    simp [truthy, hne]
  constructor
  · intro hbf
    rw [createNews_eq]
    simp [htr, hbf]
  · intro b' r' hok
    obtain ⟨hr', hb', -⟩ := createNews_ok hok
    refine ⟨hr', ?_, ?_⟩
    · unfold recordOf
      simp [htr, mkRecord]
    · rw [hb']
      simp [blobAfter, truthy, hne, blobPut, contentOrEmpty, hc]

def candW : CandidateRun :=
  ⟨⟨"W", "https://w.example/1", "W", some "w body", none, 0, none⟩,
   false, false⟩

def repoW : RepoState := ⟨[recordOf candW emptyBlob]⟩

theorem blob_write_before_metadata_witness :
    repoW.records = emptyRepo.records ++ [recordOf candW emptyBlob] ∧
    (recordOf candW emptyBlob).contentKey =
      some (freshKey emptyBlob candW.art.source) ∧
    (freshKey emptyBlob candW.art.source, "w body") ∈
      (blobAfter candW emptyBlob).blobs :=
  (blob_write_before_metadata candW emptyBlob emptyRepo "w body" rfl
      rfl).2 (blobAfter candW emptyBlob) repoW (by decide)

/-! ### Claim C6 -/

def artU1 : NewsArticleInfo :=
  ⟨"U a", "https://s.example/u", "S", some "u body a", none, 0, none⟩

def artU2 : NewsArticleInfo :=
  ⟨"U b", "https://s.example/u", "S", some "u body b", none, 0, none⟩

def artW1 : NewsArticleInfo :=
  ⟨"W1", "https://s.example/w", "S", some "w body", none, 0, none⟩

/-- A source whose discovery yields the same url twice (e.g. once as a
relative link and once absolute, resolved to the same address) followed by
a fresh one. -/
def envDupUrls : CrawlEnv :=
  ⟨.ok (), [⟨"S", [plain artU1, plain artU2, plain artW1], none⟩]⟩

/-- C6, counterexample. With an unchanged candidate list containing the
same new url twice, the first run saves the url once, then aborts on the
unique-index violation of its in-batch duplicate (the bulk dedup check was
computed before the loop), leaving the third candidate unsaved; the second
run — against the identical origin content — then saves that third
candidate, so the second run saves 1 article, not 0. -/
theorem dup_candidates_break_idempotence :
    (crawlAllSources envDupUrls emptyBlob emptyRepo).savedCount = 1 ∧
    (crawlAllSources envDupUrls
        (crawlAllSources envDupUrls emptyBlob emptyRepo).blob
        (crawlAllSources envDupUrls emptyBlob emptyRepo).repo).savedCount
      = 1 := by
  decide

/-- C6, amended: provided no two candidates of the cycle share a url,
running the cycle twice against unchanged sources saves zero articles on
the second run and leaves the repository of the first run untouched — the
stored url set is a fixed point: every candidate whose url is already
present is skipped, and a candidate whose persistence failed on the first
run fails identically on the second. -/
theorem dedup_idempotent (env : CrawlEnv) (b : BlobStore) (r : RepoState)
    (hnd : (candidateUrls env).Nodup) :
    (crawlAllSources env
        (crawlAllSources env b r).blob
        (crawlAllSources env b r).repo).savedCount = 0 ∧
    (crawlAllSources env
        (crawlAllSources env b r).blob
        (crawlAllSources env b r).repo).repo =
      (crawlAllSources env b r).repo := by
  rcases hbi : env.browserInit with e | u
  · rw [crawlAllSources_err env b r e hbi,
      crawlAllSources_err env _ _ e hbi]
    exact ⟨rfl, rfl⟩
  · have hok : env.browserInit = .ok () := hbi
    rw [crawlAllSources_ok env b r hok]
    rw [crawlAllSources_ok env _ _ hok]
    have key := saveLoop_twice (findExistingUrls r (candidateUrls env))
      (allCandidates env) b r 0
      (findExistingUrls
        (saveLoop (findExistingUrls r (candidateUrls env))
          (allCandidates env) b r 0).repo (candidateUrls env))
      (saveLoop (findExistingUrls r (candidateUrls env))
        (allCandidates env) b r 0).blob
      hnd ?_ ?_ ?_
    · exact ⟨key.2, key.1⟩
    · intro c hc hin
      exact ((mem_findExistingUrls r (candidateUrls env) c.art.url).1 hin).1
    · intro c hc hin
      intro hmem
      exact hin ((mem_findExistingUrls r (candidateUrls env) c.art.url).2
        ⟨hmem, List.mem_map_of_mem _ hc⟩)
    · intro c hc
      constructor
      · intro hin
        exact ((mem_findExistingUrls _ (candidateUrls env) c.art.url).1
          hin).1
      · intro hmem
        exact (mem_findExistingUrls _ (candidateUrls env) c.art.url).2
          ⟨hmem, List.mem_map_of_mem _ hc⟩

theorem dedup_idempotent_witness :
    (crawlAllSources envPersistOk
        (crawlAllSources envPersistOk emptyBlob emptyRepo).blob
        (crawlAllSources envPersistOk emptyBlob emptyRepo).repo).savedCount
      = 0 ∧
    (crawlAllSources envPersistOk
        (crawlAllSources envPersistOk emptyBlob emptyRepo).blob
        (crawlAllSources envPersistOk emptyBlob emptyRepo).repo).repo =
      (crawlAllSources envPersistOk emptyBlob emptyRepo).repo :=
  dedup_idempotent envPersistOk emptyBlob emptyRepo (by decide)

/-! ### Claim C7 -/

/-- C7: url uniqueness. Inserting a record whose url is already present
fails at the repository layer; a whole crawl cycle only ever appends to the
stored records (the existing ones are never overwritten), and it preserves
the no-two-records-share-a-url invariant. -/
theorem url_unique_invariant (r : RepoState) (rec : MongoNewsRecord)
    (env : CrawlEnv) (b : BlobStore)
    (hdup : rec.url ∈ repoUrls r) (hnd : (repoUrls r).Nodup) :
    insertRecord r rec = .error "duplicate key error" ∧
    (∃ tail, (crawlAllSources env b r).repo.records = r.records ++ tail) ∧
    (repoUrls (crawlAllSources env b r).repo).Nodup := by
  refine ⟨by simp [insertRecord, hdup], ?_, ?_⟩
  · rcases hbi : env.browserInit with e | u
    · rw [crawlAllSources_err env b r e hbi]
      exact ⟨[], by simp⟩
    · rw [crawlAllSources_ok env b r hbi]
      exact saveLoop_records _ _ b r 0
  · rcases hbi : env.browserInit with e | u
    · rw [crawlAllSources_err env b r e hbi]
      exact hnd
    · rw [crawlAllSources_ok env b r hbi]
      exact saveLoop_nodup _ _ b r 0 hnd

def recDup : MongoNewsRecord := mkRecord artC1 "other content" none

theorem url_unique_invariant_witness :
    insertRecord repoWithC recDup = .error "duplicate key error" ∧
    (∃ tail, (crawlAllSources scenarioEnvThrowingB emptyBlob
        repoWithC).repo.records = repoWithC.records ++ tail) ∧
    (repoUrls (crawlAllSources scenarioEnvThrowingB emptyBlob
        repoWithC).repo).Nodup :=
  url_unique_invariant repoWithC recDup scenarioEnvThrowingB emptyBlob
    (by decide) (by decide)

/-! ### Claim C8 -/

theorem mem_extractCountries (t country : String) :
    country ∈ extractCountries t ↔
      country ∈ countryList ∧
        jsIncludes (jsToLower t) (jsToLower country) = true := by
  unfold extractCountries
  simp [List.mem_filter]

/-- C8: every record a crawl cycle adds carries as its country tags exactly
`extractCountries` of the article body, so each tag entry is drawn from the
fixed configured country list and a country appears among the tags exactly
when its lower-cased name occurs as a substring of the lower-cased body. -/
theorem country_tags_characterized (env : CrawlEnv) (b : BlobStore)
    (r : RepoState) (rec : MongoNewsRecord)
    (hmem : rec ∈ (crawlAllSources env b r).repo.records)
    (hnew : rec ∉ r.records) :
    ∃ body : String,
      rec.geopoliticalData.countries = extractCountries body ∧
      ∀ country : String,
        country ∈ rec.geopoliticalData.countries ↔
          country ∈ countryList ∧
            jsIncludes (jsToLower body) (jsToLower country) = true := by
  rcases hbi : env.browserInit with e | u
  · rw [crawlAllSources_err env b r e hbi] at hmem
    exact absurd hmem hnew
  · rw [crawlAllSources_ok env b r hbi] at hmem
    rcases saveLoop_new_records _ _ b r 0 rec hmem with h | ⟨c, -, bb, hrec⟩
    · exact absurd h hnew
    · refine ⟨contentOrEmpty c.art.content, ?_, ?_⟩
      · rw [hrec]
        exact recordOf_enrich_countries c bb
      · intro country
        rw [hrec, recordOf_enrich_countries c bb]
        exact mem_extractCountries _ _

def artTension : NewsArticleInfo :=
  ⟨"Tensions", "https://t.example/1", "T",
   some "Tensions between China and Russia rise", none, 0, none⟩

def envTension : CrawlEnv :=
  ⟨.ok (), [⟨"T", [plain artTension], none⟩]⟩

def recTension : MongoNewsRecord := recordOf (enrich (plain artTension)) emptyBlob

theorem country_tags_characterized_witness :
    (∃ body : String,
      recTension.geopoliticalData.countries = extractCountries body ∧
      ∀ country : String,
        country ∈ recTension.geopoliticalData.countries ↔
          country ∈ countryList ∧
            jsIncludes (jsToLower body) (jsToLower country) = true) ∧
    recTension.geopoliticalData.countries = ["China", "Russia"] :=
  ⟨country_tags_characterized envTension emptyBlob emptyRepo recTension
      (by decide) (by decide),
   by decide⟩

/-! ### Claim C9 -/

/-- C9: the inline content stored by a successful `createNews` for an
article with non-empty body is exactly the first 200 characters of the body
followed by the `...` marker when the body is longer than 200 characters,
and is the empty string — in particular free of the marker — when the body
is 200 characters or shorter. -/
theorem excerpt_bound (c : CandidateRun) (b : BlobStore) (r : RepoState)
    (body : String) (b' : BlobStore) (r' : RepoState)
    (hc : c.art.content = some body) (hne : body.isEmpty = false)
    (hok : createNews c b r = (b', r', none)) :
    r'.records = r.records ++ [recordOf c b] ∧
    (200 < body.length →
      (recordOf c b).content = String.mk (body.data.take 200) ++ "...") ∧
    (body.length ≤ 200 →
      (recordOf c b).content = "" ∧
      hasInfix (recordOf c b).content.data "...".data = false) := by
  obtain ⟨hr', -, -⟩ := createNews_ok hok
  refine ⟨hr', ?_, ?_⟩
  · intro hlen
    simp [recordOf, truthy, hne, mkRecord, excerptOf, contentOrEmpty, hc,
      hlen]
  · intro hlen
    have hnl : ¬ 200 < body.length := not_lt.mpr hlen
    constructor
    · simp [recordOf, truthy, hne, mkRecord, excerptOf, contentOrEmpty, hc,
        hnl]
    · simp [recordOf, truthy, hne, mkRecord, excerptOf, contentOrEmpty, hc,
        hnl, hasInfix]

def candShort : CandidateRun :=
  ⟨⟨"Sh", "https://sh.example/1", "Sh", some "short body", none, 0, none⟩,
   false, false⟩

def repoShort : RepoState := ⟨[recordOf candShort emptyBlob]⟩

theorem excerpt_bound_witness :
    repoShort.records = emptyRepo.records ++ [recordOf candShort emptyBlob] ∧
    (200 < ("short body" : String).length →
      (recordOf candShort emptyBlob).content =
        String.mk (("short body" : String).data.take 200) ++ "...") ∧
    (("short body" : String).length ≤ 200 →
      (recordOf candShort emptyBlob).content = "" ∧
      hasInfix (recordOf candShort emptyBlob).content.data "...".data
        = false) :=
  excerpt_bound candShort emptyBlob emptyRepo "short body"
    (blobAfter candShort emptyBlob) repoShort rfl rfl (by decide)

/-! ### Claim C10 -/

/-- C10: when a successful `createNews` persists an article whose body is
non-empty but at most 200 characters long, the inline content field of the
stored record is the empty string — not the body — while the body's only
copy sits in the blob store under the record's `contentKey`. -/
theorem short_body_offloaded (c : CandidateRun) (b : BlobStore)
    (r : RepoState) (body : String) (b' : BlobStore) (r' : RepoState)
    (hc : c.art.content = some body) (hne : body.isEmpty = false)
    (hlen : body.length ≤ 200)
    (hok : createNews c b r = (b', r', none)) :
    r'.records = r.records ++ [recordOf c b] ∧
    (recordOf c b).content = "" ∧
    (recordOf c b).contentKey = some (freshKey b c.art.source) ∧
    (freshKey b c.art.source, body) ∈ b'.blobs := by
  obtain ⟨hr', hb', -⟩ := createNews_ok hok
  have hnl : ¬ 200 < body.length := not_lt.mpr hlen
  refine ⟨hr', ?_, ?_, ?_⟩
  · simp [recordOf, truthy, hne, mkRecord, excerptOf, contentOrEmpty, hc,
      hnl]
  · simp [recordOf, truthy, hne, mkRecord, hc]
  · rw [hb']
    simp [blobAfter, truthy, hne, blobPut, contentOrEmpty, hc]

def candTiny : CandidateRun :=
  ⟨⟨"Tiny", "https://tiny.example/1", "Tiny", some "tiny body", none, 0,
    none⟩, false, false⟩

def repoTiny : RepoState := ⟨[recordOf candTiny emptyBlob]⟩

theorem short_body_offloaded_witness :
    repoTiny.records = emptyRepo.records ++ [recordOf candTiny emptyBlob] ∧
    (recordOf candTiny emptyBlob).content = "" ∧
    (recordOf candTiny emptyBlob).contentKey =
      some (freshKey emptyBlob candTiny.art.source) ∧
    (freshKey emptyBlob candTiny.art.source, "tiny body") ∈
      (blobAfter candTiny emptyBlob).blobs :=
  short_body_offloaded candTiny emptyBlob emptyRepo "tiny body"
    (blobAfter candTiny emptyBlob) repoTiny rfl rfl (by decide) (by decide)

end GeoNews
